import Mathlib

/-!
Verification development for the YaLafi-LS language server
(`src/yalafi_ls/server.py`).  The Python source is shallowly embedded:
pure functions become Lean functions, in-place mutation becomes explicit
state passing, Python exceptions become `Except`/error values, and the
effects of the server (progress events, log lines, user notifications,
diagnostic publication) become an explicit event trace.  Python integers
are modelled as `Int` (they are unbounded), Python strings as `String`
or `List Char` as convenient for slicing.
-/

namespace YalafiLS

/-- Python-level exceptions that the embedded code can raise. -/
inductive PyErr where
  | keyError
  | typeError
  | attributeError
  | valueError
  deriving DecidableEq, Repr

/-- `lsprotocol.types.Position` (external collaborator).  Fields are Python
ints; `line`/`character` are modelled as `Int` because the shifter's
arithmetic can drive them below zero. -/
structure Position where
  line : Int
  character : Int
  deriving DecidableEq, Repr

/-- Ordering of positions, lexicographic by (line, character).  Modelled from
the spec (section 3): positions are "ordered lexicographically by
(line, column)"; the `lsprotocol` library providing the comparison is an
external collaborator. -/
def posLt (a b : Position) : Bool :=
  decide (a.line < b.line ∨ (a.line = b.line ∧ a.character < b.character))

/-- Non-strict companion of `posLt`, same modelling note. -/
def posLe (a b : Position) : Bool :=
  decide (a.line < b.line ∨ (a.line = b.line ∧ a.character ≤ b.character))

/-- `lsprotocol.types.Range`: a start and an end position. -/
structure Range where
  start : Position
  «end» : Position
  deriving DecidableEq, Repr

/-- Embeds `range_in` (server.py line 68): Range `b` is included in Range `a`
iff `a.start <= b.start` and `b.end <= a.end`. -/
def range_in (a b : Range) : Bool :=
  posLe a.start b.start && posLe b.«end» a.«end»

/-- Parsed JSON values, the result of `json_decoder.decode` (the decoder
itself is Python's standard library, an external collaborator). -/
inductive JVal where
  | jnull
  | jbool (b : Bool)
  | jnum (n : Int)
  | jstr (s : String)
  | jarr (xs : List JVal)
  | jobj (fields : List (String × JVal))

/-- Structural equality of JSON values, the `==` Python applies to values
decoded from JSON.  (Python dict equality is order-insensitive; the JSON
objects compared here come from the same decode, so field order agrees.) -/
def jvalBeq : JVal → JVal → Bool
  | .jnull, .jnull => true
  | .jbool a, .jbool b => a == b
  | .jnum a, .jnum b => a == b
  | .jstr a, .jstr b => a == b
  | .jarr [], .jarr [] => true
  | .jarr (x :: xs), .jarr (y :: ys) => jvalBeq x y && jvalBeq (.jarr xs) (.jarr ys)
  | .jobj [], .jobj [] => true
  | .jobj ((k, v) :: fs), .jobj ((k', v') :: gs) =>
      k == k' && jvalBeq v v' && jvalBeq (.jobj fs) (.jobj gs)
  | _, _ => false

/-- Field lookup in a decoded JSON object (`dict.get` / `dict[key]`;
decoded dicts have unique keys). -/
def jlookup (fields : List (String × JVal)) (k : String) : Option JVal :=
  (fields.find? (fun p => p.1 == k)).map Prod.snd

/-- Python `dic[item]` on a decoded JSON value: `KeyError` when the key is
missing, `TypeError` when the value is not a dict. -/
def pyGetItem (v : JVal) (k : String) : Except PyErr JVal :=
  match v with
  | .jobj fs =>
      match jlookup fs k with
      | some w => .ok w
      | none => .error .keyError
  | _ => .error .typeError

/-- Embeds `json_get(dic, item, int)` (server.py line 116): `dic.get(item)`
followed by an `isinstance` test raising `TypeError` on failure.  Python
`bool` is a subclass of `int`, so decoded `true`/`false` pass the test with
values 1/0. -/
def json_get_int (dic : JVal) (item : String) : Except PyErr Int :=
  match dic with
  | .jobj fs =>
      match jlookup fs item with
      | some (.jnum n) => .ok n
      | some (.jbool b) => .ok (if b then 1 else 0)
      | _ => .error .typeError
  | _ => .error .typeError

/-- Embeds `json_get(dic, item, str)`. -/
def json_get_str (dic : JVal) (item : String) : Except PyErr String :=
  match dic with
  | .jobj fs =>
      match jlookup fs item with
      | some (.jstr s) => .ok s
      | _ => .error .typeError
  | _ => .error .typeError

/-- Embeds `json_get(dic, item, dict)`; returns the dict value itself. -/
def json_get_dict (dic : JVal) (item : String) : Except PyErr JVal :=
  match dic with
  | .jobj fs =>
      match jlookup fs item with
      | some (.jobj gs) => .ok (.jobj gs)
      | _ => .error .typeError
  | _ => .error .typeError

/-- Embeds `json_get(dic, item, list)`. -/
def json_get_list (dic : JVal) (item : String) : Except PyErr (List JVal) :=
  match dic with
  | .jobj fs =>
      match jlookup fs item with
      | some (.jarr xs) => .ok xs
      | _ => .error .typeError
  | _ => .error .typeError

/-- `lsprotocol.types.DiagnosticSeverity`. -/
inductive DiagnosticSeverity where
  | Error
  | Warning
  | Information
  | Hint
  deriving DecidableEq, Repr

/-- Embeds `LT_SEVERITY_MAPPING` (server.py lines 81-109), the static
category-id to severity table. -/
def LT_SEVERITY_MAPPING : List (String × DiagnosticSeverity) :=
  [ ("CASING", .Warning),
    ("COLLOCATIONS", .Warning),
    ("COLLOQUIALISMS", .Information),
    ("COMPOUNDING", .Warning),
    ("CONFUSED_WORDS", .Information),
    ("CORRESPONDENCE", .Warning),
    ("EINHEIT_LEERZEICHEN", .Warning),
    ("EMPFOHLENE_RECHTSCHREIBUNG", .Information),
    ("FALSE_FRIENDS", .Information),
    ("GENDER_NEUTRALITY", .Information),
    ("GRAMMAR", .Warning),
    ("HILFESTELLUNG_KOMMASETZUNG", .Warning),
    ("IDIOMS", .Information),
    ("MISC", .Warning),
    ("MISUSED_TERMS_EU_PUBLICATIONS", .Warning),
    ("NONSTANDARD_PHRASES", .Information),
    ("PLAIN_ENGLISH", .Information),
    ("PROPER_NOUNS", .Warning),
    ("PUNCTUATION", .Warning),
    ("REDUNDANCY", .Warning),
    ("REGIONALISMS", .Information),
    ("REPETITIONS", .Information),
    ("SEMANTICS", .Warning),
    ("STYLE", .Information),
    ("TYPOGRAPHY", .Warning),
    ("TYPOS", .Warning),
    ("WIKIPEDIA", .Information) ]

/-- Dictionary lookup in `LT_SEVERITY_MAPPING`. -/
def lt_severity_lookup (k : String) : Option DiagnosticSeverity :=
  (LT_SEVERITY_MAPPING.find? (fun p => p.1 == k)).map Prod.snd

/-- Embeds server.py lines 238-241: the category id is looked up in
`LT_SEVERITY_MAPPING.keys()`; ids absent from the table (including ids that
are not strings at all, which are never dict keys here) give
`DiagnosticSeverity.Error`. -/
def severity_from_category (catVal : JVal) : DiagnosticSeverity :=
  match catVal with
  | .jstr s => (lt_severity_lookup s).getD .Error
  | _ => .Error

/-- Count of occurrences of `c` among the first `stop` characters, Python
`tex.count(c, 0, stop)` (the slice bound clamps at the end of the text). -/
def countChar (l : List Char) (c : Char) (stop : Nat) : Nat :=
  ((l.take stop).filter (fun x => x = c)).length

/-- Index of the last occurrence of `c` in `l`, or -1 when there is none;
with `l` truncated to `stop` characters this is Python
`tex.rfind(c, 0, stop)`. -/
def lastIndexOf (l : List Char) (c : Char) : Int :=
  match l with
  | [] => -1
  | x :: xs =>
      let r := lastIndexOf xs c
      if r ≥ 0 then r + 1
      else if x = c then 0 else -1

/-- Embeds `_position_from_offset(tex, lines, offset)` (server.py line 279):
`lin = tex.count(chr(10), 0, offset)` and
`col = offset - tex.rfind(chr(10), 0, offset) - 1`.  The `lines` argument is
unused, as in the source. -/
def _position_from_offset (tex : List Char) (_lines : List String) (offset : Nat) : Position :=
  { line := (countChar tex '\n' offset : Int),
    character := (offset : Int) - lastIndexOf (tex.take offset) '\n' - 1 }

/-- Width of a string in UTF-16 code units; a character outside the Basic
Multilingual Plane counts as 2 units.  Models `pygls.workspace.utf16_num_units`
(external collaborator), the protocol's column-unit convention per the spec
(section 4.1). -/
def utf16_num_units (l : List Char) : Nat :=
  (l.map (fun c => if c.toNat > 0xFFFF then 2 else 1)).sum

/-- Spec-side helper: the characters after the last newline of `l` (the whole
of `l` when it has no newline).  Used to state what the spec calls "the
distance from the previous newline (or start of text) to `offset`". -/
def afterLastNewline : List Char → List Char
  | [] => []
  | c :: cs =>
      if cs.any (fun x => x = '\n') then afterLastNewline cs
      else if c = '\n' then cs
      else c :: cs

/-- Python list slicing `l[a:b]` for non-negative bounds (bounds clamp to the
list's length).  Negative indices, which Python would wrap around the end,
do not occur in the spec's data model (offsets and lengths are non-negative)
and are not modelled. -/
def pySlice (l : List Char) (a b : Nat) : List Char :=
  (l.take b).drop a

/-- Python `str.lower()` for the ASCII range (rule ids are ASCII). -/
def pyCharLower (c : Char) : Char :=
  if 'A' ≤ c ∧ c ≤ 'Z' then Char.ofNat (c.toNat + 32) else c

/-- Python `str.lower()` applied characterwise. -/
def pyLower (s : String) : String :=
  String.mk (s.data.map pyCharLower)

/-- The fixed `source` tag of every diagnostic this server publishes
(`YaLafiLanguageServer.SOURCE_NAME`). -/
def SOURCE_NAME : String := "YaLafi"

/-- `lsprotocol.types.Diagnostic` as this server builds and consumes it.
`plain_text` and `replacements` model the `data` dict the server attaches
under the keys `plain_text` and `replacements`; `replacements` is `none`
when the stored value is JSON null (the `is not None` test in
`code_action`), otherwise the raw decoded list. -/
structure Diagnostic where
  range : Range
  message : String
  code : String
  severity : DiagnosticSeverity
  source : String
  plain_text : List Char
  replacements : Option (List JVal)

/-- Python `==` on diagnostics (attrs classes compare field by field). -/
def diagEq (a b : Diagnostic) : Bool :=
  a.range == b.range && a.message == b.message && a.code == b.code &&
  a.severity == b.severity && a.source == b.source &&
  a.plain_text == b.plain_text &&
  (match a.replacements, b.replacements with
   | none, none => true
   | some xs, some ys => jvalBeq (.jarr xs) (.jarr ys)
   | _, _ => false)

/-- The pygls text document (external collaborator): its uri, file-system
path (empty string models a falsy `path`), current text, `lines` view,
version and attached diagnostic list. -/
structure TextDoc where
  uri : String
  path : String
  source : List Char
  lines : List String
  version : Option Int
  diagnostics : List Diagnostic

/-- Embeds `_mark_context(context)` (server.py line 257): reads
`context` keys `text`, `offset` and `length` by direct indexing, slices out
the plain text and brackets it with the three-character markers.  Non-string
text or non-integer bounds would make Python's slicing raise; they are
mapped to `TypeError` here. -/
def _mark_context (context : JVal) : Except PyErr (List Char × List Char) :=
  match context with
  | .jobj fs =>
      match jlookup fs "text" with
      | none => .error .keyError
      | some tv =>
        match jlookup fs "offset" with
        | none => .error .keyError
        | some ov =>
          match jlookup fs "length" with
          | none => .error .keyError
          | some lv =>
            match tv, ov, lv with
            | .jstr t, .jnum o, .jnum l =>
                let text := t.data
                let off := o.toNat
                let len := l.toNat
                let plain_text := pySlice text off (off + len)
                .ok (plain_text,
                     pySlice text 0 off ++ ">>>".data ++ plain_text ++
                       "<<<".data ++ text.drop (off + len))
            | _, _, _ => .error .typeError
  | _ => .error .typeError

/-- The access path `lt_rule` -> `category` -> `id` of server.py line 238. -/
def rule_category_id (lt_rule : JVal) : Except PyErr JVal := do
  let cat ← pyGetItem lt_rule "category"
  pyGetItem cat "id"

/-- Embeds `_create_diagnostic_from_match(match, text_doc)` (server.py
line 229).  The source reads `lt_rule` subfields inline
(lines 238-239 and 250); here each access path is factored into one
evaluation of the same pure lookup.  `.lower()` on a non-string rule id is
an `AttributeError`. -/
def _create_diagnostic_from_match (m : JVal) (text_doc : TextDoc) :
    Except PyErr Diagnostic :=
  match json_get_int m "offset" with
  | .error e => .error e
  | .ok offset =>
  match json_get_int m "length" with
  | .error e => .error e
  | .ok len =>
  match json_get_str m "message" with
  | .error e => .error e
  | .ok lt_message =>
  match json_get_str m "shortMessage" with
  | .error e => .error e
  | .ok lt_short_message =>
  match json_get_dict m "rule" with
  | .error e => .error e
  | .ok lt_rule =>
  match json_get_list m "replacements" with
  | .error e => .error e
  | .ok lt_replacements =>
  match json_get_dict m "context" with
  | .error e => .error e
  | .ok ctx =>
  match _mark_context ctx with
  | .error e => .error e
  | .ok pc =>
  match rule_category_id lt_rule with
  | .error e => .error e
  | .ok catVal =>
  match pyGetItem lt_rule "id" with
  | .error e => .error e
  | .ok (.jstr ruleId) =>
      .ok { range :=
              { start := _position_from_offset text_doc.source text_doc.lines
                           offset.toNat,
                «end» := _position_from_offset text_doc.source text_doc.lines
                           (offset + len).toNat },
            message := lt_short_message ++ "\n" ++ lt_message ++
                       "\nContext: " ++ String.mk pc.2,
            code := pyLower ruleId,
            severity := severity_from_category catVal,
            source := SOURCE_NAME,
            plain_text := pc.1,
            replacements := some (lt_replacements.take 10) }
  | .ok _ => .error .attributeError

/-- The result-ingestion loop of `full_spellcheck` (server.py lines 220-222):
build a diagnostic per match, aborting on the first raised error. -/
def mapMatches (ms : List JVal) (text_doc : TextDoc) :
    Except PyErr (List Diagnostic) :=
  match ms with
  | [] => .ok []
  | m :: rest => do
      let d ← _create_diagnostic_from_match m text_doc
      let ds ← mapMatches rest text_doc
      .ok (d :: ds)

/-- An entry of `ls.subprocesses`: either the live `subprocess.Popen` handle
or the string sentinel `"Cancelled"` that `progress_cancel` writes over it. -/
inductive TableEntry where
  | running
  | cancelled
  deriving DecidableEq, Repr

/-- Python dict lookup on the token table. -/
def tbl_get (t : List (String × TableEntry)) (k : String) : Option TableEntry :=
  (t.find? (fun p => p.1 == k)).map Prod.snd

/-- Python dict assignment `t[k] = v` (keys are unique). -/
def tbl_set (t : List (String × TableEntry)) (k : String) (v : TableEntry) :
    List (String × TableEntry) :=
  match t with
  | [] => [(k, v)]
  | (k', v') :: rest =>
      if k' == k then (k, v) :: rest else (k', v') :: tbl_set rest k v

/-- Python `del t[k]` for a key known present (a missing key would raise,
which the call sites model separately). -/
def tbl_del (t : List (String × TableEntry)) (k : String) :
    List (String × TableEntry) :=
  match t with
  | [] => []
  | (k', v') :: rest =>
      if k' == k then rest else (k', v') :: tbl_del rest k

/-- `lsprotocol.types.MessageType` (only the constructors the server uses). -/
inductive MessageType where
  | Error
  | Warning
  | Info
  | Log
  deriving DecidableEq, Repr

/-- The observable effects of the server, in emission order. -/
inductive Event where
  | log (s : String)
  | progressCreate (token : String)
  | progressBegin (token : String) (title message : String) (cancellable : Bool)
  | progressReport (token : String) (message : String)
  | progressEnd (token : String) (message : String)
  | showMessage (s : String) (t : MessageType)
  | publishDiagnostics (uri : String) (diags : List Diagnostic)
  | terminate (token : String)

/-- The user-visible text of the `finally` notification
(server.py lines 210-213). -/
def defaultFailMessage : String :=
  "Could not run YaLafi. See YaLafi output for more information."

/-- The command line built for the YaLafi subprocess (server.py
lines 154-158); `sys.executable` is abstracted to a constant. -/
def yalafi_cmd (yalafi_options : List String) (path : String) : List String :=
  ["python", "-m", "yalafi.shell", "--out", "json"] ++ yalafi_options ++ [path]

/-- The environment's answer to one subprocess invocation.  `cancelRequested`
records whether `progress_cancel` ran for this token while the process was
being waited on (terminating the process and overwriting the table entry
with the sentinel before line 170 reads it).  `stdoutParse` is the outcome
of the standard library's JSON decode of the captured stdout. -/
structure SpawnOk where
  returncode : Int
  stdoutParse : Except Unit JVal
  stderr : String
  cancelRequested : Bool

/-- Either the executable could not be found (`FileNotFoundError` from
`Popen`, carrying the missing file name) or the process ran. -/
inductive SpawnResult where
  | notFound (filename : String)
  | ran (r : SpawnOk)

/-- Everything observable after one `full_spellcheck` run: the events in
order, the token table afterwards, the document's diagnostic list
afterwards, and the exception escaping the handler, if any. -/
structure RunResult where
  events : List Event
  table : List (String × TableEntry)
  docDiagnostics : List Diagnostic
  raised : Option PyErr

/-- Embeds `full_spellcheck(ls, text_document_uri)` (server.py line 131)
as a function of the subprocess environment.  Control flow follows the
source: the `try` body (lines 153-181), the three `except` handlers, the
`finally` notification for unsuccessful runs (lines 208-214), the
`if success` ingestion block (lines 215-225) whose `json_get` and
`_create_diagnostic_from_match` calls raise outside any handler, and the
trailing `del ls.subprocesses[token]` (line 226), which is skipped when
ingestion raises and itself raises `KeyError` when `Popen` failed before
the token was inserted. -/
def full_spellcheck (spawn : SpawnResult) (yalafi_options : List String)
    (text_doc : TextDoc) (token : String)
    (table : List (String × TableEntry)) : RunResult :=
  let ev0 := [Event.log ("[Info] Spellcheck Document \"" ++ text_doc.path ++ "\"")]
  if text_doc.path = "" then
    { events := ev0, table := table, docDiagnostics := text_doc.diagnostics,
      raised := none }
  else
    let ev1 := ev0 ++ [Event.progressCreate token,
                       Event.progressBegin token "Spellchecking" "Run YaLafi" true]
    match spawn with
    | .notFound fn =>
        -- Popen raised before `ls.subprocesses[token] = process`; the
        -- handler logs, the `finally` notifies, and `del` raises KeyError.
        { events := ev1 ++
            [Event.log ("[Error] Could not run Yalafi because " ++ fn ++
               " was not found."),
             Event.showMessage defaultFailMessage MessageType.Error,
             Event.progressEnd token "Failed"],
          table := table, docDiagnostics := text_doc.diagnostics,
          raised := some .keyError }
    | .ran r =>
        let table1 := tbl_set table token
          (if r.cancelRequested then .cancelled else .running)
        let ev2 := ev1 ++ [Event.log
          ("[Info] YaLafi subprocess returned with code " ++ toString r.returncode)]
        if r.returncode ≠ 0 then
          if r.cancelRequested then
            -- line 171, then `finally` (success is still False), then `del`.
            { events := ev2 ++
                [Event.progressEnd token "Cancelled",
                 Event.showMessage defaultFailMessage MessageType.Error,
                 Event.progressEnd token "Failed"],
              table := tbl_del table1 token,
              docDiagnostics := text_doc.diagnostics, raised := none }
          else
            -- CalledProcessError handler (lines 182-195), then `finally`.
            { events := ev2 ++
                [Event.log ("[Error] Could not run Yalafi. " ++
                   "Maybe the command line options are not correctly set."),
                 Event.log ("[Error] Command was: " ++
                   String.intercalate ", " (yalafi_cmd yalafi_options text_doc.path)),
                 Event.log ("[Error] Stderr: " ++ r.stderr),
                 Event.showMessage defaultFailMessage MessageType.Error,
                 Event.progressEnd token "Failed"],
              table := tbl_del table1 token,
              docDiagnostics := text_doc.diagnostics, raised := none }
        else
          let ev3 := ev2 ++ [Event.progressReport token "Parse result"]
          match r.stdoutParse with
          | .error _ =>
              -- JSONDecodeError handler (lines 202-207), then `finally`.
              { events := ev3 ++
                  [Event.log "[Error] YaLafi did not returned valid JSON.",
                   Event.log ("[Error] YaLafi Stderr: " ++ r.stderr),
                   Event.showMessage defaultFailMessage MessageType.Error,
                   Event.progressEnd token "Failed"],
                table := tbl_del table1 token,
                docDiagnostics := text_doc.diagnostics, raised := none }
          | .ok dic =>
              -- success = True, the `finally` does nothing, ingestion runs.
              let ev4 := ev3 ++ [Event.progressReport token "Create Diagnostics"]
              match json_get_list dic "matches" with
              | .error e =>
                  -- TypeError escapes; `del ls.subprocesses[token]` skipped.
                  { events := ev4, table := table1,
                    docDiagnostics := text_doc.diagnostics, raised := some e }
              | .ok ms =>
                  match mapMatches ms text_doc with
                  | .error e =>
                      { events := ev4, table := table1,
                        docDiagnostics := text_doc.diagnostics,
                        raised := some e }
                  | .ok diags =>
                      { events := ev4 ++
                          [Event.publishDiagnostics text_doc.uri diags,
                           Event.progressEnd token "Finished"],
                        table := tbl_del table1 token,
                        docDiagnostics := diags, raised := none }

/-- Embeds `progress_cancel(ls, params)` (server.py line 457): when the token
is in the table the entry is terminated and overwritten with the sentinel;
a sentinel entry is a string, and calling `.terminate()` on it raises
`AttributeError`.  Returns the new table and emitted events, or the raised
error. -/
def progress_cancel (table : List (String × TableEntry)) (token : String) :
    Except PyErr (List (String × TableEntry) × List Event) :=
  match tbl_get table token with
  | none => .ok (table, [])
  | some entry =>
      match entry with
      | .running =>
          .ok (tbl_set table token .cancelled,
               [Event.log ("[Info] Will cancel progress with token " ++ token),
                Event.terminate token])
      | .cancelled => .error .attributeError

/-- `lsprotocol.types.TextDocumentContentChangeEvent` (the variant carrying a
range): the replaced span in the pre-change document and the new text. -/
structure TextDocumentContentChangeEvent where
  range : Range
  text : List Char
  deriving Repr

/-- `change.text.count(chr(10))` of server.py line 293. -/
def change_rows (change : TextDocumentContentChangeEvent) : Nat :=
  (change.text.filter (fun c => c = '\n')).length

/-- `change_single_line` of server.py lines 294-296. -/
def change_single_line (change : TextDocumentContentChangeEvent) : Bool :=
  (change.range.start.line == change.range.«end».line) && (change_rows change == 0)

/-- `change_length = utf16_num_units(change.text)` of server.py line 297. -/
def change_length (change : TextDocumentContentChangeEvent) : Nat :=
  utf16_num_units change.text

/-- `change_line_diff` of server.py line 298. -/
def change_line_diff (change : TextDocumentContentChangeEvent) : Int :=
  change.range.start.line - change.range.«end».line + change_rows change

/-- `change_character_diff` of server.py line 299. -/
def change_character_diff (change : TextDocumentContentChangeEvent) : Int :=
  change.range.start.character - change.range.«end».character + change_length change

/-- The in-place mutation of case 2 (server.py lines 304-305): both line
numbers shifted by `change_line_diff`. -/
def shiftLines (change : TextDocumentContentChangeEvent) (d : Diagnostic) :
    Diagnostic :=
  { d with range :=
      { start := { d.range.start with
                     line := d.range.start.line + change_line_diff change },
        «end» := { d.range.«end» with
                     line := d.range.«end».line + change_line_diff change } } }

/-- The in-place mutation of case 4 (server.py lines 310-311): both columns
shifted by `change_character_diff`. -/
def shiftChars (change : TextDocumentContentChangeEvent) (d : Diagnostic) :
    Diagnostic :=
  { d with range :=
      { start := { d.range.start with
                     character := d.range.start.character +
                                  change_character_diff change },
        «end» := { d.range.«end» with
                     character := d.range.«end».character +
                                  change_character_diff change } } }

/-- Python `list.remove(d)`: delete the first element comparing equal to
`d` (at the call site `d` is a member, so the no-occurrence case of
Python's `ValueError` cannot arise). -/
def pyRemove (l : List Diagnostic) (d : Diagnostic) : List Diagnostic :=
  match l with
  | [] => []
  | x :: xs => if diagEq x d then xs else x :: pyRemove xs d

/-- The `for d in diagnostics` loop of `shift_diagnostics` (server.py
lines 300-311) with CPython's list-iterator semantics: the iterator keeps a
bare index that advances by one per step, so when the body removes the
current element the element sliding into its slot is skipped.  `fuel` is a
structural bound on the remaining iterations; since every step advances the
index and never lengthens the list, `lst.length` steps always suffice. -/
def shiftLoop (change : TextDocumentContentChangeEvent) :
    Nat → List Diagnostic → Nat → List Diagnostic
  | 0, lst, _ => lst
  | fuel + 1, lst, i =>
      if h : i < lst.length then
        let d := lst.get ⟨i, h⟩
        if posLt d.range.«end» change.range.start then
          shiftLoop change fuel lst (i + 1)
        else if d.range.start.line > change.range.«end».line then
          shiftLoop change fuel (lst.set i (shiftLines change d)) (i + 1)
        else if posLe change.range.start d.range.start &&
                posLe d.range.«end» change.range.«end» then
          shiftLoop change fuel (pyRemove lst d) (i + 1)
        else if change_single_line change &&
                (d.range.start.line == change.range.start.line) &&
                (change.range.«end».character ≤ d.range.start.character) then
          shiftLoop change fuel (lst.set i (shiftChars change d)) (i + 1)
        else
          shiftLoop change fuel lst (i + 1)
      else lst

/-- Embeds `shift_diagnostics(diagnostics, change)` (server.py line 286),
returning the mutated list. -/
def shift_diagnostics (diagnostics : List Diagnostic)
    (change : TextDocumentContentChangeEvent) : List Diagnostic :=
  if diagnostics.length = 0 then diagnostics
  else shiftLoop change diagnostics.length diagnostics 0

/-- Embeds `_update_diagnostics` (server.py line 423): one
`shift_diagnostics` call per content change, in arrival order. -/
def _update_diagnostics (diagnostics : List Diagnostic)
    (content_changes : List TextDocumentContentChangeEvent) : List Diagnostic :=
  content_changes.foldl shift_diagnostics diagnostics

/-- Modelled from the spec: the document collaborator's
`offset_at_position` (pygls, section 4.1 `offsetAt`), the offset of the
start of line `position.line` plus the column, clamped to the line and to
the end of the text. -/
def lineStartAux : List Char → Nat → Nat → Nat
  | _, 0, acc => acc
  | [], _ + 1, acc => acc
  | c :: cs, n + 1, acc =>
      if c = '\n' then lineStartAux cs n (acc + 1)
      else lineStartAux cs (n + 1) (acc + 1)

/-- Length of the line beginning at the head of `l` (characters before the
next newline). -/
def lineLenFrom (l : List Char) : Nat :=
  (l.takeWhile (fun c => c ≠ '\n')).length

/-- Modelled from the spec: `offsetAt(text, position)` of the PositionIndex
contract (section 4.1), total for any position, clamping the column into the
addressed line. -/
def offset_at_position (text : List Char) (pos : Position) : Nat :=
  let s := lineStartAux text pos.line.toNat 0
  s + min pos.character.toNat (lineLenFrom (text.drop s))

/-- One emitted quick-fix action: the title, the diagnostic it repairs, and
its single `TextEdit` (range, replacement text) against the given document
version (server.py lines 398-417). -/
structure CodeAction where
  title : String
  diagnostics : List Diagnostic
  edit_range : Range
  new_text : String
  version : Int

/-- The eligibility test of server.py lines 387-389: the diagnostic is from
this server, its stored replacements value is not `None`, and the list is
non-empty. -/
def action_eligible (diag : Diagnostic) : Bool :=
  diag.source == SOURCE_NAME &&
    (match diag.replacements with
     | none => false
     | some rs => decide (0 < rs.length))

/-- The drift check of server.py lines 390-392: true when the live document
text at the diagnostic's range no longer equals the stored plain text. -/
def drifted (doc : TextDoc) (diag : Diagnostic) : Bool :=
  let offset_beg := offset_at_position doc.source diag.range.start
  let offset_end := offset_at_position doc.source diag.range.«end»
  decide ¬ (pySlice doc.source offset_beg offset_end = diag.plain_text)

/-- Title and replacement value of one replacement entry (server.py
lines 395-397 and 410): `repl` must be a dict with a `value` entry; a
present `shortDescription` is appended in parentheses.  Non-string values,
which Python would reject later (string concatenation or the protocol
type validators), are mapped to `TypeError`. -/
def replTitleValue (repl : JVal) : Except PyErr (String × String) :=
  match repl with
  | .jobj fs =>
      match jlookup fs "value" with
      | none => .error .keyError
      | some (.jstr v) =>
          match jlookup fs "shortDescription" with
          | none => .ok (v, v)
          | some (.jstr sd) => .ok (v ++ " (" ++ sd ++ ")", v)
          | some _ => .error .typeError
      | some _ => .error .typeError
  | _ => .error .typeError

/-- The inner `for repl in diag.data[REPLACEMENTS]` loop (server.py
lines 394-419): append one action per replacement and break out of this
loop once the accumulated total exceeds 10. -/
def code_action_build (diag : Diagnostic) (version : Int) :
    List JVal → List CodeAction → Except PyErr (List CodeAction)
  | [], acc => .ok acc
  | repl :: rest, acc =>
      match replTitleValue repl with
      | .error e => .error e
      | .ok tv =>
          let acc' := acc ++
            [{ title := tv.1, diagnostics := [diag], edit_range := diag.range,
               new_text := tv.2, version := version }]
          if acc'.length > 10 then .ok acc'
          else code_action_build diag version rest acc'

/-- The outer `for diag in params.context.diagnostics` loop of
`code_action` (server.py lines 386-419).  A failed drift check executes
`break`, abandoning the rest of the request and returning the actions
accumulated so far; the inner cap `break` only ends the replacement loop,
after which this loop continues with the next diagnostic. -/
def code_action_loop (doc : TextDoc) (version : Int) :
    List Diagnostic → List CodeAction → Except PyErr (List CodeAction)
  | [], acc => .ok acc
  | diag :: rest, acc =>
      if action_eligible diag then
        if drifted doc diag then .ok acc
        else
          match code_action_build diag version (diag.replacements.getD []) acc with
          | .error e => .error e
          | .ok acc' => code_action_loop doc version rest acc'
      else code_action_loop doc version rest acc

/-- Embeds the `code_action` handler (server.py line 373): document version
defaulting to 0 when absent, then the action-building loop over the
request's diagnostics. -/
def code_action (doc : TextDoc) (request_diagnostics : List Diagnostic) :
    Except PyErr (List CodeAction) :=
  code_action_loop doc (doc.version.getD 0) request_diagnostics []

/-- Bool classifier: is this event a user-visible notification? -/
def isShowMessageEv : Event → Bool
  | .showMessage _ _ => true
  | _ => false

/-- Bool classifier: is this event a diagnostics publication? -/
def isPublishEv : Event → Bool
  | .publishDiagnostics _ _ => true
  | _ => false

/-- Bool classifier: is this event a progress end for `token` carrying
message `msg`? -/
def isProgressEndWith (token msg : String) : Event → Bool
  | .progressEnd t m => t == token && m == msg
  | _ => false

/-- The start-before-end wellformedness of a diagnostic's range. -/
def rangeOrdered (d : Diagnostic) : Bool :=
  posLe d.range.start d.range.«end»

/-- The failure cases of one run, per the spec's taxonomy: the executable
was missing, the process exited non-zero not via cancellation, or it exited
zero with unparsable stdout. -/
def spawn_failed : SpawnResult → Bool
  | .notFound _ => true
  | .ran r =>
      (decide (r.returncode ≠ 0) && !r.cancelRequested) ||
      (decide (r.returncode = 0) &&
        (match r.stdoutParse with | .error _ => true | .ok _ => false))

/-- Diagnostic fixture builder for the concrete inputs below. -/
def sampleDiag (r : Range) (pt : List Char) (repls : Option (List JVal)) :
    Diagnostic :=
  { range := r, message := "m", code := "c", severity := .Warning,
    source := SOURCE_NAME, plain_text := pt, replacements := repls }

/-- Document fixture with empty text. -/
def sampleDoc : TextDoc :=
  { uri := "file:a.tex", path := "/a.tex", source := [], lines := [],
    version := some 1, diagnostics := [] }

/-- A single-line deletion covering columns 0-10 of line 0. -/
def cexChange : TextDocumentContentChangeEvent :=
  { range := { start := { line := 0, character := 0 },
               «end» := { line := 0, character := 10 } },
    text := [] }

/-- First of two adjacent diagnostics inside `cexChange`'s span. -/
def cexDiagA : Diagnostic :=
  sampleDiag { start := { line := 0, character := 2 },
               «end» := { line := 0, character := 4 } } [] none

/-- Second adjacent diagnostic inside `cexChange`'s span. -/
def cexDiagB : Diagnostic :=
  sampleDiag { start := { line := 0, character := 5 },
               «end» := { line := 0, character := 7 } } [] none

/-- Environment of a cancelled run: the cancel handler terminated the
process (it exits with -SIGTERM) and wrote the sentinel before the
returncode test. -/
def cancelSpawn : SpawnResult :=
  .ran { returncode := -15, stdoutParse := .error (), stderr := "",
         cancelRequested := true }

/-- Environment of a run whose stdout parses but whose `matches` entry is
not a list, so ingestion raises `TypeError`. -/
def leakSpawn : SpawnResult :=
  .ran { returncode := 0,
         stdoutParse := .ok (JVal.jobj [("matches", JVal.jnum 3)]),
         stderr := "", cancelRequested := false }

/-- Environment of a plainly failed run: exit code 2. -/
def failSpawn : SpawnResult :=
  .ran { returncode := 2, stdoutParse := .error (), stderr := "boom",
         cancelRequested := false }

/-- Ten replacement entries for the cap fixtures. -/
def capRepls : List JVal :=
  List.replicate 10 (JVal.jobj [("value", JVal.jstr "x")])

/-- An eligible, non-drifted diagnostic carrying ten replacements
(an empty span of the empty document, stored plain text empty). -/
def capDiag : Diagnostic :=
  sampleDiag { start := { line := 0, character := 0 },
               «end» := { line := 0, character := 0 } } [] (some capRepls)

/-- An eligible diagnostic whose stored plain text no longer matches the
(empty) document: the drift check fails on it. -/
def driftDiag : Diagnostic :=
  sampleDiag { start := { line := 0, character := 0 },
               «end» := { line := 0, character := 0 } } ['z'] (some capRepls)

/-- A well-formed analyzer match with category TYPOS. -/
def typosMatch : JVal :=
  JVal.jobj [
    ("offset", JVal.jnum 10), ("length", JVal.jnum 4),
    ("message", JVal.jstr "msg"), ("shortMessage", JVal.jstr "short"),
    ("rule", JVal.jobj [("id", JVal.jstr "EN_TYPO"),
                        ("category", JVal.jobj [("id", JVal.jstr "TYPOS")])]),
    ("replacements", JVal.jarr [JVal.jobj [("value", JVal.jstr "fix")]]),
    ("context", JVal.jobj [("text", JVal.jstr "abcdefghij"),
                           ("offset", JVal.jnum 2), ("length", JVal.jnum 3)])]

/-- Placeholder diagnostic for total projections out of `Except`. -/
def junkDiag : Diagnostic :=
  { range := { start := { line := 0, character := 0 },
               «end» := { line := 0, character := 0 } },
    message := "", code := "", severity := .Error, source := "",
    plain_text := [], replacements := none }

/-- The diagnostic the mapper produces for `typosMatch`. -/
def dTypos : Diagnostic :=
  (_create_diagnostic_from_match typosMatch sampleDoc).toOption.getD junkDiag

/-- C1: the claim says a cancelled run ends with a cancellation progress-end,
publishes no diagnostic set, and does not trigger the fatal failure
notification.  Evaluating the embedded `full_spellcheck` on a cancelled run
shows the first two parts hold but the third fails: because `success` is
never set on the cancellation branch, the `finally` block also emits the
fatal user notification and a second progress end carrying `Failed`. -/
theorem full_spellcheck_cancel_also_notifies_failure :
    (full_spellcheck cancelSpawn [] sampleDoc "tok" []).events.any
        (isProgressEndWith "tok" "Cancelled") = true ∧
    (full_spellcheck cancelSpawn [] sampleDoc "tok" []).events.filter
        isPublishEv = [] ∧
    (full_spellcheck cancelSpawn [] sampleDoc "tok" []).events.filter
        isShowMessageEv =
      [Event.showMessage defaultFailMessage MessageType.Error] ∧
    (full_spellcheck cancelSpawn [] sampleDoc "tok" []).events.any
        (isProgressEndWith "tok" "Failed") = true :=
  ⟨rfl, rfl, rfl, rfl⟩

/-- C3: the claim says every diagnostic fully contained in the changed span
is removed and each element is visited exactly once.  Evaluating the
embedded shifter on two adjacent contained diagnostics refutes it: removing
the first slides the second under the iterator's index, so the second is
never visited and survives with its dangling range (it is contained in the
change's range, witnessed by `range_in`). -/
theorem shift_diagnostics_skips_after_removal :
    shift_diagnostics [cexDiagA, cexDiagB] cexChange = [cexDiagB] ∧
    range_in cexChange.range cexDiagB.range = true :=
  ⟨rfl, rfl⟩

/-- C7: the claim says the token is removed from the process-wide table on
every terminal state, including runs whose ingestion fails on a mistyped
field.  Evaluating the embedded `full_spellcheck` on a run whose `matches`
entry is not a list shows the `TypeError` escapes before the trailing
`del ls.subprocesses[token]`, leaving the token in the table. -/
theorem full_spellcheck_ingestion_leaks_token :
    tbl_get (full_spellcheck leakSpawn [] sampleDoc "tok" []).table "tok" =
      some TableEntry.running ∧
    (full_spellcheck leakSpawn [] sampleDoc "tok" []).raised =
      some PyErr.typeError :=
  ⟨rfl, rfl⟩

/-- C4 counterexample: the claim says the column is the distance from the
previous newline measured in UTF-16 code units, so a character outside the
Basic Multilingual Plane contributes 2 units.  For the one-character text
consisting of U+1D11E and offset 1, that distance is 2 units, but the
embedded `_position_from_offset` returns column 1: it counts characters. -/
theorem position_from_offset_not_utf16 :
    (_position_from_offset [Char.ofNat 0x1D11E] [] 1).character ≠
      (utf16_num_units (afterLastNewline (([Char.ofNat 0x1D11E]).take 1)) : Int) := by
  decide

/-- C6 counterexample: the claim says at most 10 actions are emitted per
request.  A request with two eligible, non-drifted diagnostics of ten
replacements each yields 11 actions: the cap test `len > 10` runs only
after an append and its `break` only leaves the inner replacement loop. -/
theorem code_action_cap_exceeded :
    (code_action sampleDoc [capDiag, capDiag]).toOption.map List.length =
      some 11 :=
  rfl

/-- C10: a second cancel request for a token whose table entry is already
the `"Cancelled"` sentinel is not a no-op: the handler finds the token in
the table, calls `.terminate()` on the sentinel string, and raises
`AttributeError`. -/
theorem progress_cancel_sentinel_raises (table : List (String × TableEntry))
    (token : String) (h : tbl_get table token = some TableEntry.cancelled) :
    progress_cancel table token = .error .attributeError := by
  unfold progress_cancel
  rw [h]

/-- Witness for `progress_cancel_sentinel_raises` at a concrete table. -/
theorem progress_cancel_sentinel_raises_w :
    tbl_get [("tok", TableEntry.cancelled)] "tok" =
      some TableEntry.cancelled ∧
    progress_cancel [("tok", TableEntry.cancelled)] "tok" =
      .error .attributeError :=
  ⟨rfl, progress_cancel_sentinel_raises [("tok", TableEntry.cancelled)] "tok" rfl⟩

theorem lastIndexOf_ge_neg_one (l : List Char) (c : Char) :
    -1 ≤ lastIndexOf l c := by
  induction l with
  | nil => simp [lastIndexOf]
  | cons x xs ih =>
      simp only [lastIndexOf]
      split
      · omega
      · split <;> omega

theorem lastIndexOf_nonneg_iff (l : List Char) (c : Char) :
    0 ≤ lastIndexOf l c ↔ l.any (fun x => x = c) = true := by
  induction l with
  | nil => simp [lastIndexOf]
  | cons x xs ih =>
      simp only [lastIndexOf, List.any_cons]
      split
      · rename_i hr
        simp only [ih.mp hr, Bool.or_true, iff_true]
        omega
      · rename_i hr
        have hxs : xs.any (fun x => x = c) = false := by
          cases h : xs.any (fun x => x = c)
          · rfl
          · exact absurd (ih.mpr h) hr
        split
        · rename_i hx
          simp [hx]
        · rename_i hx
          simp [hx, hxs]

theorem length_sub_lastIndexOf (u : List Char) :
    (u.length : Int) - lastIndexOf u '\n' - 1 =
      ((afterLastNewline u).length : Int) := by
  induction u with
  | nil => simp [lastIndexOf, afterLastNewline]
  | cons c cs ih =>
      by_cases hn : cs.any (fun x => x = '\n') = true
      · have hr : 0 ≤ lastIndexOf cs '\n' :=
          (lastIndexOf_nonneg_iff cs '\n').mpr hn
        simp only [afterLastNewline, if_pos hn, lastIndexOf, List.length_cons]
        rw [if_pos hr]
        push_cast
        omega
      · have hr : ¬ 0 ≤ lastIndexOf cs '\n' := fun h =>
          hn ((lastIndexOf_nonneg_iff cs '\n').mp h)
        have hge := lastIndexOf_ge_neg_one cs '\n'
        by_cases hc : c = '\n'
        · simp only [afterLastNewline, if_neg hn, if_pos hc, lastIndexOf,
            List.length_cons]
          push_cast
          omega
        · simp only [afterLastNewline, if_neg hn, if_neg hc, lastIndexOf,
            List.length_cons]
          push_cast
          omega

/-- C4 (amended): for every text and offset in bounds, `positionAt` returns
the line as the number of newline characters strictly before the offset and
the column as the distance from the previous newline (or text start)
measured in characters (code points), so a character outside the Basic
Multilingual Plane contributes 1 column unit, not 2. -/
theorem position_from_offset_counts_codepoints (tex : List Char)
    (lines : List String) (offset : Nat) (h : offset ≤ tex.length) :
    (_position_from_offset tex lines offset).line =
      (((tex.take offset).filter (fun c => c = '\n')).length : Int) ∧
    (_position_from_offset tex lines offset).character =
      ((afterLastNewline (tex.take offset)).length : Int) := by
  constructor
  · rfl
  · have hlen : (tex.take offset).length = offset := by
      rw [List.length_take]
      omega
    have h2 := length_sub_lastIndexOf (tex.take offset)
    rw [hlen] at h2
    simpa [_position_from_offset] using h2

/-- Witness for `position_from_offset_counts_codepoints` at the text
"a\nb" and offset 3. -/
theorem position_from_offset_counts_codepoints_w :
    3 ≤ (['a', '\n', 'b'] : List Char).length ∧
    ((_position_from_offset ['a', '\n', 'b'] [] 3).line =
       (((['a', '\n', 'b'].take 3).filter (fun c => c = '\n')).length : Int) ∧
     (_position_from_offset ['a', '\n', 'b'] [] 3).character =
       ((afterLastNewline (['a', '\n', 'b'].take 3)).length : Int)) :=
  ⟨by decide,
   position_from_offset_counts_codepoints ['a', '\n', 'b'] [] 3 (by decide)⟩

theorem rangeOrdered_shiftLines (change : TextDocumentContentChangeEvent)
    (d : Diagnostic) (h : rangeOrdered d = true) :
    rangeOrdered (shiftLines change d) = true := by
  simp only [rangeOrdered, shiftLines, posLe, decide_eq_true_eq] at h ⊢
  omega

theorem rangeOrdered_shiftChars (change : TextDocumentContentChangeEvent)
    (d : Diagnostic) (h : rangeOrdered d = true) :
    rangeOrdered (shiftChars change d) = true := by
  simp only [rangeOrdered, shiftChars, posLe, decide_eq_true_eq] at h ⊢
  omega

theorem mem_pyRemove {l : List Diagnostic} {d x : Diagnostic}
    (hx : x ∈ pyRemove l d) : x ∈ l := by
  induction l with
  | nil => simp [pyRemove] at hx
  | cons a as ih =>
      rw [pyRemove] at hx
      split at hx
      · exact List.mem_cons_of_mem _ hx
      · rcases List.mem_cons.mp hx with h | h
        · simp [h]
        · exact List.mem_cons_of_mem _ (ih h)

theorem shiftLoop_preserves (change : TextDocumentContentChangeEvent)
    (fuel : Nat) :
    ∀ (lst : List Diagnostic) (i : Nat),
      (∀ d ∈ lst, rangeOrdered d = true) →
      ∀ d ∈ shiftLoop change fuel lst i, rangeOrdered d = true := by
  induction fuel with
  | zero =>
      intro lst i h d hd
      exact h d (by simpa [shiftLoop] using hd)
  | succ fuel ih =>
      intro lst i h d hd
      simp only [shiftLoop] at hd
      split at hd
      · rename_i hi
        split at hd
        · exact ih lst (i + 1) h d hd
        · split at hd
          · refine ih _ (i + 1) ?_ d hd
            intro e he
            rcases List.mem_or_eq_of_mem_set he with h' | rfl
            · exact h e h'
            · exact rangeOrdered_shiftLines change _
                (h _ (List.get_mem lst i hi))
          · split at hd
            · refine ih _ (i + 1) ?_ d hd
              intro e he
              exact h e (mem_pyRemove he)
            · split at hd
              · refine ih _ (i + 1) ?_ d hd
                intro e he
                rcases List.mem_or_eq_of_mem_set he with h' | rfl
                · exact h e h'
                · exact rangeOrdered_shiftChars change _
                    (h _ (List.get_mem lst i hi))
              · exact ih lst (i + 1) h d hd
      · exact h d hd

theorem shift_diagnostics_preserves (diags : List Diagnostic)
    (change : TextDocumentContentChangeEvent)
    (h : ∀ d ∈ diags, rangeOrdered d = true) :
    ∀ d ∈ shift_diagnostics diags change, rangeOrdered d = true := by
  unfold shift_diagnostics
  split
  · exact h
  · exact shiftLoop_preserves change diags.length diags 0 h

/-- C8: starting from a diagnostic set whose ranges all satisfy
start ≤ end (lexicographically), applying any sequence of text changes in
arrival order never produces a diagnostic whose range has start > end.
Proved for all change sequences, so in particular for the non-overlapping
ones the claim quantifies over. -/
theorem shifter_keeps_start_le_end (diags : List Diagnostic)
    (changes : List TextDocumentContentChangeEvent)
    (h : diags.all rangeOrdered = true) :
    (_update_diagnostics diags changes).all rangeOrdered = true := by
  induction changes generalizing diags with
  | nil => simpa [_update_diagnostics] using h
  | cons ch rest ih =>
      have h' : ∀ d ∈ diags, rangeOrdered d = true := by
        simpa [List.all_eq_true] using h
      have hstep : (shift_diagnostics diags ch).all rangeOrdered = true := by
        rw [List.all_eq_true]
        intro d hd
        exact shift_diagnostics_preserves diags ch h' d hd
      have := ih (shift_diagnostics diags ch) hstep
      simpa [_update_diagnostics] using this

/-- Witness for `shifter_keeps_start_le_end` at a concrete set and change. -/
theorem shifter_keeps_start_le_end_w :
    ([cexDiagA].all rangeOrdered = true) ∧
    (_update_diagnostics [cexDiagA] [cexChange]).all rangeOrdered = true :=
  ⟨by decide, shifter_keeps_start_le_end [cexDiagA] [cexChange] (by decide)⟩

/-- C5: for every failed run (non-zero exit not via cancellation, missing
executable, or unparsable stdout), no diagnostic set is published and the
document's diagnostics are untouched, exactly one user-visible notification
is issued and it is the fixed fatal message (command line and stderr appear
only in `show_message_log` events), and a progress end carrying `Failed` is
emitted. -/
theorem full_spellcheck_failure_effects (spawn : SpawnResult)
    (opts : List String) (doc : TextDoc) (token : String)
    (table : List (String × TableEntry))
    (hpath : ¬ doc.path = "") (hfail : spawn_failed spawn = true) :
    (full_spellcheck spawn opts doc token table).events.filter isPublishEv = [] ∧
    (full_spellcheck spawn opts doc token table).events.filter isShowMessageEv =
      [Event.showMessage defaultFailMessage MessageType.Error] ∧
    (full_spellcheck spawn opts doc token table).events.any
      (isProgressEndWith token "Failed") = true ∧
    (full_spellcheck spawn opts doc token table).docDiagnostics =
      doc.diagnostics := by
  cases spawn with
  | notFound fn =>
      refine ⟨?_, ?_, ?_, ?_⟩ <;>
        simp [full_spellcheck, hpath, isPublishEv, isShowMessageEv,
          isProgressEndWith]
  | ran r =>
      simp only [spawn_failed, Bool.or_eq_true, Bool.and_eq_true,
        decide_eq_true_eq, Bool.not_eq_true'] at hfail
      rcases hfail with ⟨hrc, hcan⟩ | ⟨hrc, hperr⟩
      · refine ⟨?_, ?_, ?_, ?_⟩ <;>
          simp [full_spellcheck, hpath, hrc, hcan, isPublishEv,
            isShowMessageEv, isProgressEndWith]
      · cases hsp : r.stdoutParse with
        | error e =>
            refine ⟨?_, ?_, ?_, ?_⟩ <;>
              simp [full_spellcheck, hpath, hrc, hsp, isPublishEv,
                isShowMessageEv, isProgressEndWith]
        | ok v =>
            rw [hsp] at hperr
            cases hperr

/-- Witness for `full_spellcheck_failure_effects` on a run exiting with
code 2. -/
theorem full_spellcheck_failure_effects_w :
    (¬ sampleDoc.path = "") ∧ spawn_failed failSpawn = true ∧
    ((full_spellcheck failSpawn [] sampleDoc "tok" []).events.filter
        isPublishEv = [] ∧
     (full_spellcheck failSpawn [] sampleDoc "tok" []).events.filter
        isShowMessageEv =
       [Event.showMessage defaultFailMessage MessageType.Error] ∧
     (full_spellcheck failSpawn [] sampleDoc "tok" []).events.any
        (isProgressEndWith "tok" "Failed") = true ∧
     (full_spellcheck failSpawn [] sampleDoc "tok" []).docDiagnostics =
       sampleDoc.diagnostics) :=
  ⟨by decide, by decide,
   full_spellcheck_failure_effects failSpawn [] sampleDoc "tok" []
     (by decide) (by decide)⟩

theorem code_action_loop_drift_stops (doc : TextDoc) (v : Int)
    (d : Diagnostic) (post : List Diagnostic)
    (he : action_eligible d = true) (hd : drifted doc d = true) :
    ∀ (pre : List Diagnostic) (acc : List CodeAction),
      (∀ p ∈ pre, action_eligible p = true → drifted doc p = false) →
      code_action_loop doc v (pre ++ d :: post) acc =
        code_action_loop doc v pre acc := by
  intro pre
  induction pre with
  | nil =>
      intro acc _
      simp [code_action_loop, he, hd]
  | cons p ps ih =>
      intro acc hpre
      have htail : ∀ q ∈ ps, action_eligible q = true → drifted doc q = false :=
        fun q hq => hpre q (List.mem_cons_of_mem p hq)
      by_cases hp : action_eligible p = true
      · have hnd : drifted doc p = false := hpre p (List.mem_cons_self p ps) hp
        simp only [List.cons_append, code_action_loop, hp, hnd, if_true,
          Bool.false_eq_true, if_false]
        cases hb : code_action_build p v (p.replacements.getD []) acc with
        | error e => rfl
        | ok acc' => exact ih acc' htail
      · have hp' : action_eligible p = false := by
          cases hpe : action_eligible p
          · rfl
          · exact absurd hpe hp
        simp only [List.cons_append, code_action_loop, hp',
          Bool.false_eq_true, if_false]
        exact ih acc htail

theorem code_action_build_undrifted (doc : TextDoc) (diag : Diagnostic)
    (v : Int) (hdg : drifted doc diag = false) :
    ∀ (repls : List JVal) (acc : List CodeAction),
      acc.all (fun a => a.diagnostics.all (fun dg => !drifted doc dg)) = true →
      ∀ res, code_action_build diag v repls acc = .ok res →
        res.all (fun a => a.diagnostics.all (fun dg => !drifted doc dg)) = true := by
  intro repls
  induction repls with
  | nil =>
      intro acc hacc res hres
      simp only [code_action_build, Except.ok.injEq] at hres
      subst hres
      exact hacc
  | cons r rs ih =>
      intro acc hacc res hres
      simp only [code_action_build] at hres
      split at hres
      · cases hres
      · split at hres
        · simp only [Except.ok.injEq] at hres
          subst hres
          simp [List.all_append, hacc, hdg]
        · refine ih _ ?_ res hres
          simp [List.all_append, hacc, hdg]

theorem code_action_loop_undrifted (doc : TextDoc) (v : Int) :
    ∀ (diags : List Diagnostic) (acc : List CodeAction),
      acc.all (fun a => a.diagnostics.all (fun dg => !drifted doc dg)) = true →
      ∀ res, code_action_loop doc v diags acc = .ok res →
        res.all (fun a => a.diagnostics.all (fun dg => !drifted doc dg)) = true := by
  intro diags
  induction diags with
  | nil =>
      intro acc hacc res hres
      simp only [code_action_loop, Except.ok.injEq] at hres
      subst hres
      exact hacc
  | cons diag rest ih =>
      intro acc hacc res hres
      simp only [code_action_loop] at hres
      split at hres
      · split at hres
        · simp only [Except.ok.injEq] at hres
          subst hres
          exact hacc
        · rename_i hndrift
          split at hres
          · cases hres
          · rename_i acc' hb
            have hdg : drifted doc diag = false := by
              cases hdr : drifted doc diag
              · rfl
              · exact absurd hdr hndrift
            exact ih acc'
              (code_action_build_undrifted doc diag v hdg _ acc hacc acc' hb)
              res hres
      · exact ih acc hacc res hres

/-- C2: if any eligible diagnostic of a code-action request fails the drift
check, the action-building pass is abandoned at that diagnostic — the
request returns exactly what the diagnostics before it produced, and the
drifting diagnostic and everything after it contribute nothing — and every
action ever returned is attached to a diagnostic that passed the drift
check, so no fix is offered against a drifted span. -/
theorem code_action_drift_fail_closed (doc : TextDoc)
    (pre post : List Diagnostic) (d : Diagnostic)
    (he : action_eligible d = true) (hd : drifted doc d = true)
    (hpre : ∀ p ∈ pre, action_eligible p = true → drifted doc p = false) :
    code_action doc (pre ++ d :: post) = code_action doc pre ∧
    ((code_action doc (pre ++ d :: post)).toOption.getD []).all
      (fun a => a.diagnostics.all (fun dg => !drifted doc dg)) = true := by
  constructor
  · exact code_action_loop_drift_stops doc (doc.version.getD 0) d post he hd
      pre [] hpre
  · cases hres : code_action doc (pre ++ d :: post) with
    | error e => simp [Except.toOption]
    | ok res =>
        have hloop : code_action_loop doc (doc.version.getD 0)
            (pre ++ d :: post) [] = .ok res := hres
        have := code_action_loop_undrifted doc (doc.version.getD 0)
          (pre ++ d :: post) [] (by simp) res hloop
        simpa [Except.toOption] using this

/-- Witness for `code_action_drift_fail_closed`: one healthy diagnostic,
then a drifted one, then another healthy one. -/
theorem code_action_drift_fail_closed_w :
    action_eligible driftDiag = true ∧ drifted sampleDoc driftDiag = true ∧
    (code_action sampleDoc ([capDiag] ++ driftDiag :: [capDiag]) =
       code_action sampleDoc [capDiag] ∧
     ((code_action sampleDoc
         ([capDiag] ++ driftDiag :: [capDiag])).toOption.getD []).all
       (fun a => a.diagnostics.all (fun dg => !drifted sampleDoc dg)) = true) :=
  ⟨by decide, by decide,
   code_action_drift_fail_closed sampleDoc [capDiag] [capDiag] driftDiag
     (by decide) (by decide) (by decide)⟩

theorem code_action_build_length (diag : Diagnostic) (v : Int) :
    ∀ (repls : List JVal) (acc res : List CodeAction),
      code_action_build diag v repls acc = .ok res →
      res.length ≤ max 11 (acc.length + 1) := by
  intro repls
  induction repls with
  | nil =>
      intro acc res hres
      simp only [code_action_build, Except.ok.injEq] at hres
      subst hres
      omega
  | cons r rs ih =>
      intro acc res hres
      simp only [code_action_build] at hres
      split at hres
      · cases hres
      · split at hres
        · rename_i hlen
          simp only [Except.ok.injEq] at hres
          subst hres
          simp only [List.length_append, List.length_cons, List.length_nil]
          omega
        · rename_i hlen
          have hrec := ih _ res hres
          simp only [List.length_append, List.length_cons,
            List.length_nil] at hrec hlen
          omega

theorem code_action_loop_length (doc : TextDoc) (v : Int) :
    ∀ (diags : List Diagnostic) (acc res : List CodeAction),
      code_action_loop doc v diags acc = .ok res →
      res.length ≤ max (10 + diags.length) (acc.length + diags.length) := by
  intro diags
  induction diags with
  | nil =>
      intro acc res hres
      simp only [code_action_loop, Except.ok.injEq] at hres
      subst hres
      simp
  | cons diag rest ih =>
      intro acc res hres
      simp only [code_action_loop] at hres
      split at hres
      · split at hres
        · simp only [Except.ok.injEq] at hres
          subst hres
          simp only [List.length_cons]
          omega
        · split at hres
          · cases hres
          · rename_i acc' hb
            have h1 := code_action_build_length diag v _ acc acc' hb
            have h2 := ih acc' res hres
            simp only [List.length_cons] at h2 ⊢
            omega
      · have h2 := ih acc res hres
        simp only [List.length_cons] at h2 ⊢
        omega

/-- C6 (amended): the cap check runs only after an append and its `break`
only leaves the replacement loop of the current diagnostic, so a single
request is bounded by 10 plus the number of diagnostics in the request
(each diagnostic reached after the total exceeds 10 can still contribute
one action), not by 10. -/
theorem code_action_total_bounded (doc : TextDoc)
    (request_diagnostics : List Diagnostic) :
    ((code_action doc request_diagnostics).toOption.getD []).length ≤
      10 + request_diagnostics.length := by
  cases hres : code_action doc request_diagnostics with
  | error e => simp [Except.toOption]
  | ok res =>
      have hloop : code_action_loop doc (doc.version.getD 0)
          request_diagnostics [] = .ok res := hres
      have := code_action_loop_length doc (doc.version.getD 0)
        request_diagnostics [] res hloop
      simp only [List.length_nil] at this
      simp only [Except.toOption, Option.getD_some]
      omega

/-- C9: every diagnostic the mapper emits resolves its severity through the
static table keyed by `rule.category.id` — a present entry (each entry
being Warning or Information) is used, an absent category id falls back to
Error — in particular category id TYPOS gives Warning, and the diagnostic's
code is the lowercased rule id. -/
theorem diagnostic_severity_and_code (m : JVal) (doc : TextDoc)
    (d : Diagnostic) (lt_rule : JVal) (catId ruleId : String)
    (hok : _create_diagnostic_from_match m doc = .ok d)
    (hrule : json_get_dict m "rule" = .ok lt_rule)
    (hcat : rule_category_id lt_rule = .ok (.jstr catId))
    (hid : pyGetItem lt_rule "id" = .ok (.jstr ruleId)) :
    d.severity = (lt_severity_lookup catId).getD DiagnosticSeverity.Error ∧
    (∀ p ∈ LT_SEVERITY_MAPPING,
       p.2 = DiagnosticSeverity.Warning ∨
       p.2 = DiagnosticSeverity.Information) ∧
    (catId = "TYPOS" → d.severity = DiagnosticSeverity.Warning) ∧
    d.code = pyLower ruleId := by
  simp only [_create_diagnostic_from_match] at hok
  split at hok
  · cases hok
  split at hok
  · cases hok
  split at hok
  · cases hok
  split at hok
  · cases hok
  split at hok
  · cases hok
  rename_i lt_rule' hrule'
  rw [hrule] at hrule'
  injection hrule' with hlr
  subst hlr
  split at hok
  · cases hok
  split at hok
  · cases hok
  split at hok
  · cases hok
  split at hok
  · cases hok
  rename_i catVal hcat'
  rw [hcat] at hcat'
  injection hcat' with hcv
  subst hcv
  split at hok
  · cases hok
  · rename_i ruleId' hid'
    rw [hid] at hid'
    injection hid' with hrv
    injection hrv with hrid
    subst hrid
    injection hok with hd
    subst hd
    refine ⟨rfl, by decide, ?_, rfl⟩
    intro hty
    subst hty
    rfl
  · rename_i hne hid'
    rw [hid] at hid'
    injection hid' with h
    exact absurd h.symm (hne ruleId)

/-- Witness for `diagnostic_severity_and_code` at the TYPOS fixture. -/
theorem diagnostic_severity_and_code_w :
    _create_diagnostic_from_match typosMatch sampleDoc = .ok dTypos ∧
    dTypos.severity =
      (lt_severity_lookup "TYPOS").getD DiagnosticSeverity.Error ∧
    dTypos.code = pyLower "EN_TYPO" :=
  ⟨rfl,
   (diagnostic_severity_and_code typosMatch sampleDoc dTypos
      (JVal.jobj [("id", JVal.jstr "EN_TYPO"),
                  ("category", JVal.jobj [("id", JVal.jstr "TYPOS")])])
      "TYPOS" "EN_TYPO" rfl rfl rfl rfl).1,
   (diagnostic_severity_and_code typosMatch sampleDoc dTypos
      (JVal.jobj [("id", JVal.jstr "EN_TYPO"),
                  ("category", JVal.jobj [("id", JVal.jstr "TYPOS")])])
      "TYPOS" "EN_TYPO" rfl rfl rfl rfl).2.2.2⟩

end YalafiLS
